import Mathlib

/-!
Verification of `corineFunctions.py`

A shallow embedding of the two functions in `src/corineFunctions.py`:

* `visualize_corine_land_cover(roi, map_title)` — validates the region,
  fetches the CORINE class metadata (names, values, palette), asks the
  backend for a frequency histogram of the classes present in the region,
  adds one masked layer per present class to a map widget, builds a legend
  and centers the map (zoom 12).
* `compute_landcover_area(corine_clipped, roi, class_mapping, scale,
  maxPixels, verbose)` — asks the backend for a grouped sum of per-pixel
  areas keyed by land-cover class, converts square meters to hectares
  (divide by 10000) and assembles the rows of a table.

The external Earth Engine backend is modelled by its responses: the three
metadata lists and the presence histogram for the visualizer, and the list
of grouped-sum records for the tabulator.  Floating point quantities are
modelled by `ℚ`.  Each embedded function also returns the list of backend
requests it issued and (for the tabulator) the console output it produced,
so that ordering of side effects relative to raised errors can be stated.
-/

namespace Corine

/-! ## Python `str.split("; ")[-1]`

`visualize_corine_land_cover` computes each display name as
`class_names[class_values.index(k)].split("; ")[-1]`.  We embed the split
over the character list of the string.  The separator is fixed to `"; "`
exactly as in the source. -/

/-- The characters of the separator string used by the source's
`split("; ")` call. -/
def sepChars : List Char := [';', ' ']

/-- Python's `s.split("; ")` on the character list of `s`: a greedy
left-to-right scan that cuts the string at every (non-overlapping)
occurrence of the separator.  `pySplit` always returns a non-empty list of
pieces; splitting the empty string yields `[[]]`, as in Python. -/
def pySplit : List Char → List (List Char)
  | [] => [[]]
  | [c] => [[c]]
  | c1 :: c2 :: cs =>
    if c1 = ';' ∧ c2 = ' ' then
      [] :: pySplit cs
    else
      match pySplit (c2 :: cs) with
      | [] => [[c1]]
      | p :: ps => (c1 :: p) :: ps

/-- Python's `s.split("; ")[-1]`: the last piece of the split.  The split
is never empty, so the default is irrelevant. -/
def pyLastSplit (s : List Char) : List Char := (pySplit s).getLastD []

/-- Python `s.split("; ")[-1]` on `String`s. -/
def pyLastSplitStr (s : String) : String := String.mk (pyLastSplit s.data)

/-! ### Spec-side characterization of the split

The spec describes the display name as "the suffix of the metadata
class-name string after the last occurrence of the separator `"; "` (the
whole string when the separator is absent)".  The following definitions
follow those words directly; claim C7 compares them with `pyLastSplit`. -/

/-- The separator occurs at position `i` of `s`. -/
def sepOccursAt (s : List Char) (i : Nat) : Bool :=
  sepChars.isPrefixOf (s.drop i)

/-- All positions of `s` at which the separator occurs, in increasing
order. -/
def sepOccurrences (s : List Char) : List Nat :=
  (List.range s.length).filter (fun i => sepOccursAt s i)

/-- Written from the spec's words: the suffix of `s` after the last
occurrence of the separator `"; "`, or all of `s` when the separator does
not occur in `s`. -/
def lastSuffixSpec (s : List Char) : List Char :=
  match (sepOccurrences s).getLast? with
  | some i => s.drop (i + sepChars.length)
  | none => s

/-! ## Python helpers: `list.index`, dict comprehensions -/

/-- Python's `list.index(k)`: the first position of `k` in the list, or
`none` where Python raises `ValueError`. -/
def pyIndex (l : List Int) (k : Int) : Option Nat :=
  match l with
  | [] => none
  | x :: xs => if x = k then some 0 else (pyIndex xs k).map (· + 1)

/-- Keys of a Python dict built by a comprehension over the given keys:
first occurrence of each key kept, in insertion order.  Models
`{int(k): present_classes[k] for k in present_classes}` (only the keys of
that dict are ever used afterwards). -/
def pyDedupKeys : List Int → List Int
  | [] => []
  | k :: l => k :: (pyDedupKeys l).filter (fun x => x != k)

/-- One insertion into a Python dict modelled as an insertion-ordered
association list: an existing key keeps its position and gets the new
value, a new key goes to the back. -/
def pyDictInsert (d : List (String × String)) (k v : String) :
    List (String × String) :=
  if d.any (fun p => p.1 == k) then
    d.map (fun p => if p.1 == k then (k, v) else p)
  else d ++ [(k, v)]

/-- A Python dict built from a list of key/value pairs (the source's
`legend_dict` comprehension). -/
def pyDictOf (l : List (String × String)) : List (String × String) :=
  l.foldl (fun d p => pyDictInsert d p.1 p.2) []

/-- Maps an option-valued function over a list, failing like a Python list
comprehension does: the first element on which `f` fails aborts the whole computation. -/
def mapOpt (f : α → Option β) : List α → Option (List β)
  | [] => some []
  | a :: l =>
    match f a with
    | none => none
    | some b =>
      match mapOpt f l with
      | none => none
      | some bs => some (b :: bs)

/-! ## The visualizer -/

/-- The backend responses consumed by one call of
`visualize_corine_land_cover`: the three parallel metadata lists of the
CORINE image (`landcover_class_names`, `landcover_class_values`,
`landcover_class_palette`) and the frequency histogram of the classes
present in the region (`reduceRegion(frequencyHistogram).get("landcover")`,
whose string keys are decoded to the integers the source converts them
to). -/
structure Backend where
  class_names : List String
  class_values : List Int
  class_palette : List String
  histogram : List (Int × ℚ)
  deriving DecidableEq

/-- Errors on the visualizer's local path: `invalidArgument` models the
`TypeError` raised when `roi` is not an `ee.Geometry` (the spec's
`InvalidArgument`), `lookupFailure` models the unhandled
`ValueError`/`IndexError` from `class_values.index(k)` /
`class_names[...]` when a present class is missing from the metadata. -/
inductive VisError
  | invalidArgument
  | lookupFailure
  deriving DecidableEq

/-- The backend round trips a call issues, in order. -/
inductive BackendRequest
  | metadataFetch
  | histogramReduce
  | maskLayer (classValue : Int)
  | groupedSumReduce (scale maxPixels : ℚ)
  deriving DecidableEq

/-- One map layer added by `m.addLayer(single_class, {"palette": [...]},
name)`: the class it masks, the palette color passed (with the `#` the
source prepends) and the display name. -/
structure Layer where
  classValue : Int
  palette : String
  name : String
  deriving DecidableEq

/-- The state of the returned `geemap.Map`: added layers, the legend title
and dict, and the centered viewport zoom. -/
structure MapWidget where
  layers : List Layer
  legendTitle : String
  legend : List (String × String)
  centerZoom : Option Nat
  deriving DecidableEq

/-- Resolution `class_names[class_values.index(k)].split("; ")[-1]`, `none`
where the Python lookups raise. -/
def resolveName (b : Backend) (k : Int) : Option String :=
  match pyIndex b.class_values k with
  | none => none
  | some i =>
    match b.class_names.get? i with
    | none => none
    | some n => some (pyLastSplitStr n)

/-- Resolution `class_palette[class_values.index(k)]`, `none` where the
Python lookups raise. -/
def resolveColor (b : Backend) (k : Int) : Option String :=
  match pyIndex b.class_values k with
  | none => none
  | some i => b.class_palette.get? i

/-- The keys of the source's `filtered_classes` dict: the histogram keys in
first-occurrence order. -/
def filteredClassKeys (b : Backend) : List Int :=
  pyDedupKeys (b.histogram.map Prod.fst)

/-- The source's `filtered_class_names` comprehension. -/
def filtered_class_names (b : Backend) : Option (List String) :=
  mapOpt (resolveName b) (filteredClassKeys b)

/-- The source's `filtered_class_palette` comprehension. -/
def filtered_class_palette (b : Backend) : Option (List String) :=
  mapOpt (resolveColor b) (filteredClassKeys b)

/-- The layers added by the `addLayer` loop: for the `i`-th present class,
the masked single-class image with palette `"#" + filtered_class_palette[i]`
and name `filtered_class_names[i]`. -/
def buildLayers (keys : List Int) (names colors : List String) : List Layer :=
  (keys.zip (names.zip colors)).map
    (fun p => { classValue := p.1, palette := "#" ++ p.2.2, name := p.2.1 })

/-- The key/value pairs of the source's `legend_dict` comprehension, before
Python's dict construction collapses duplicate names. -/
def buildLegendPairs (names colors : List String) : List (String × String) :=
  (names.zip colors).map (fun p => (p.1, "#" ++ p.2))

/-- The visualizer.  `roiIsGeometry` is the result of the
source's `isinstance(roi, ee.Geometry)` check; `b` packages the backend's
responses.  Returns the outcome (map widget or raised error) together with
the list of backend requests issued before returning. -/
def visualize_corine_land_cover (roiIsGeometry : Bool) (b : Backend)
    (map_title : String) :
    Except VisError MapWidget × List BackendRequest :=
  match roiIsGeometry with
  | false => (Except.error VisError.invalidArgument, [])
  | true =>
    match filtered_class_names b, filtered_class_palette b with
    | some names, some colors =>
      (Except.ok
        { layers := buildLayers (filteredClassKeys b) names colors
          legendTitle := map_title
          legend := pyDictOf (buildLegendPairs names colors)
          centerZoom := some 12 },
       BackendRequest.metadataFetch :: BackendRequest.histogramReduce ::
         (filteredClassKeys b).map BackendRequest.maskLayer)
    | _, _ =>
      (Except.error VisError.lookupFailure,
       [BackendRequest.metadataFetch, BackendRequest.histogramReduce])

/-! ## The tabulator -/

/-- One record of the backend's grouped-sum reduction
(`Reducer.sum().group(groupField=1)`): the land-cover class (`group`, an
integer in the backend's response, which the source passes through `int`)
and the summed pixel area in square meters (`sum`). -/
structure GroupRecord where
  group : Int
  sum : ℚ
  deriving DecidableEq

/-- One row of the resulting table. -/
structure AreaRow where
  Class : Int
  ClassName : String
  AreaHa : ℚ
  deriving DecidableEq

/-- The console output of `compute_landcover_area`, as structured events:
the `"Landcover area in hectares:"` header, one per-class line, and the
echo of the data frame. -/
inductive LogEntry
  | header
  | classLine (name : String) (cls : Int) (areaHa : ℚ)
  | dataFrameEcho
  deriving DecidableEq

/-- The `for group in groups:` loop body: build one row per group record,
printing a per-class line when `verbose`.  The class name is
`class_mapping.get(landcover_class, "Unknown")` and the area is
`group['sum'] / 10000`. -/
def tabulateLoop (class_mapping : List (Int × String)) (verbose : Bool) :
    List GroupRecord → List AreaRow × List LogEntry
  | [] => ([], [])
  | g :: gs =>
    let class_name := (class_mapping.lookup g.group).getD "Unknown"
    let area_ha := g.sum / 10000
    let rest := tabulateLoop class_mapping verbose gs
    ({ Class := g.group, ClassName := class_name, AreaHa := area_ha } :: rest.1,
     (if verbose then [LogEntry.classLine class_name g.group area_ha] else [])
       ++ rest.2)

/-- The tabulator.  `groups` is the backend's response to the
grouped-sum reduction (`area_by_class.get('groups').getInfo()`); the
request itself, carrying `scale` and `maxPixels`, is issued before the
loop runs.  Returns the table rows, the backend requests issued and the
console output. -/
def compute_landcover_area (groups : List GroupRecord)
    (class_mapping : List (Int × String)) (scale maxPixels : ℚ)
    (verbose : Bool) :
    List AreaRow × List BackendRequest × List LogEntry :=
  let loop := tabulateLoop class_mapping verbose groups
  (loop.1,
   [BackendRequest.groupedSumReduce scale maxPixels],
   (if verbose then [LogEntry.header] else []) ++ loop.2 ++
     (if verbose then [LogEntry.dataFrameEcho] else []))

/-! ## Helper lemmas about the split -/

theorem sepOccursAt_nil (i : Nat) : sepOccursAt [] i = false := by
  simp only [sepOccursAt, List.drop_nil]
  rfl

theorem sepOccursAt_single (c : Char) (i : Nat) : sepOccursAt [c] i = false := by
  cases i with
  | zero => simp [sepOccursAt, sepChars, List.isPrefixOf]
  | succ j =>
    have h : ([c] : List Char).drop (j + 1) = [] := by simp
    simp [sepOccursAt, h, sepChars, List.isPrefixOf]

theorem sepOccursAt_cons_succ (c : Char) (t : List Char) (i : Nat) :
    sepOccursAt (c :: t) (i + 1) = sepOccursAt t i := by
  simp [sepOccursAt, List.drop_succ_cons]

theorem sepOccursAt_cons₂_iff (c1 c2 : Char) (cs : List Char) :
    sepOccursAt (c1 :: c2 :: cs) 0 = true ↔ (c1 = ';' ∧ c2 = ' ') := by
  simp only [sepOccursAt, List.drop_zero, sepChars, List.isPrefixOf,
    Bool.and_eq_true, beq_iff_eq, and_true]
  constructor <;> rintro ⟨ha, hb⟩ <;> exact ⟨ha.symm, hb.symm⟩

theorem range_filter_succ (p : Nat → Bool) (n : Nat) :
    (List.range (n + 1)).filter p =
      (if p 0 then [0] else []) ++
        ((List.range n).filter (fun i => p (i + 1))).map (· + 1) := by
  rw [List.range_succ_eq_map, List.filter_cons, List.filter_map]
  have hc : p ∘ Nat.succ = fun i => p (i + 1) := rfl
  rw [hc]
  by_cases h : p 0 = true
  · simp [h]
  · simp [h]

theorem sepOccurrences_nil : sepOccurrences [] = [] := rfl

theorem sepOccurrences_single (c : Char) : sepOccurrences [c] = [] := by
  simp [sepOccurrences, List.filter, sepOccursAt_single]

theorem sepOccurrences_cons (c : Char) (t : List Char) :
    sepOccurrences (c :: t) =
      (if sepOccursAt (c :: t) 0 then [0] else []) ++
        (sepOccurrences t).map (· + 1) := by
  simp only [sepOccurrences, List.length_cons]
  rw [range_filter_succ (fun i => sepOccursAt (c :: t) i) t.length]
  have heq : (fun i => sepOccursAt (c :: t) (i + 1)) = fun i => sepOccursAt t i := by
    funext i
    exact sepOccursAt_cons_succ c t i
  rw [heq]

/-- Value of `sepOccurrences` on a cons whose head position carries an
occurrence. -/
theorem sepOccurrences_cons_true {c : Char} {t : List Char}
    (h : sepOccursAt (c :: t) 0 = true) :
    sepOccurrences (c :: t) = 0 :: (sepOccurrences t).map (· + 1) := by
  rw [sepOccurrences_cons, h]
  simp

/-- Value of `sepOccurrences` on a cons whose head position carries no
occurrence. -/
theorem sepOccurrences_cons_false {c : Char} {t : List Char}
    (h : sepOccursAt (c :: t) 0 = false) :
    sepOccurrences (c :: t) = (sepOccurrences t).map (· + 1) := by
  rw [sepOccurrences_cons, h]
  simp

/-- The last element of a cons with non-empty tail is the tail's last
element. -/
theorem getLast?_cons_of_ne_nil {a : α} {l : List α} (h : l ≠ []) :
    (a :: l).getLast? = l.getLast? := by
  cases l with
  | nil => exact absurd rfl h
  | cons b bs => exact List.getLast?_cons_cons

theorem sepOccurrences_sep_cons (cs : List Char) :
    sepOccurrences (';' :: ' ' :: cs) =
      0 :: (sepOccurrences cs).map (fun i => i + 2) := by
  have h0 : sepOccursAt (';' :: ' ' :: cs) 0 = true :=
    (sepOccursAt_cons₂_iff ';' ' ' cs).mpr ⟨rfl, rfl⟩
  have h1 : sepOccursAt (' ' :: cs) 0 = false := by
    cases cs with
    | nil => exact sepOccursAt_single ' ' 0
    | cons x xs =>
      rw [Bool.eq_false_iff]
      intro ht
      exact absurd ((sepOccursAt_cons₂_iff ' ' x xs).mp ht).1 (by decide)
  rw [sepOccurrences_cons_true h0, sepOccurrences_cons_false h1, List.map_map]
  congr 1

theorem sepOccurrences_cons_of_ne (c1 c2 : Char) (cs : List Char)
    (h : ¬(c1 = ';' ∧ c2 = ' ')) :
    sepOccurrences (c1 :: c2 :: cs) =
      (sepOccurrences (c2 :: cs)).map (· + 1) := by
  have h0 : sepOccursAt (c1 :: c2 :: cs) 0 = false := by
    rw [Bool.eq_false_iff]
    intro ht
    exact h ((sepOccursAt_cons₂_iff c1 c2 cs).mp ht)
  exact sepOccurrences_cons_false h0

theorem pySplit_sep_cons (cs : List Char) :
    pySplit (';' :: ' ' :: cs) = [] :: pySplit cs := by
  simp [pySplit]

theorem pySplit_cons_of_ne {c1 c2 : Char} {cs p : List Char}
    {ps : List (List Char)} (h : ¬(c1 = ';' ∧ c2 = ' '))
    (hp : pySplit (c2 :: cs) = p :: ps) :
    pySplit (c1 :: c2 :: cs) = (c1 :: p) :: ps := by
  simp [pySplit, if_neg h, hp]

theorem pySplit_ne_nil : ∀ t : List Char, pySplit t ≠ [] := by
  intro t
  match t with
  | [] => simp [pySplit]
  | [c] => simp [pySplit]
  | c1 :: c2 :: cs =>
    simp only [pySplit]
    split
    · simp
    · split <;> simp

theorem pySplit_length : ∀ t : List Char,
    (pySplit t).length = (sepOccurrences t).length + 1 := by
  intro t
  induction t using pySplit.induct with
  | case1 => rfl
  | case2 c => rw [sepOccurrences_single]; rfl
  | case3 c1 c2 cs hcond ih =>
    obtain ⟨h1, h2⟩ := hcond
    subst h1; subst h2
    rw [pySplit_sep_cons, sepOccurrences_sep_cons]
    simp [ih]
  | case4 c1 c2 cs hcond hnil ih => exact absurd hnil (pySplit_ne_nil _)
  | case5 c1 c2 cs hcond p ps hp ih =>
    rw [pySplit_cons_of_ne hcond hp, sepOccurrences_cons_of_ne c1 c2 cs hcond]
    rw [hp] at ih
    simp at ih ⊢
    omega

theorem pySplit_singleton : ∀ {t u : List Char}, pySplit t = [u] → u = t := by
  intro t
  induction t using pySplit.induct with
  | case1 =>
    intro u h
    simp only [pySplit, List.cons.injEq, and_true] at h
    exact h.symm
  | case2 c =>
    intro u h
    simp only [pySplit, List.cons.injEq, and_true] at h
    exact h.symm
  | case3 c1 c2 cs hcond ih =>
    intro u h
    obtain ⟨h1, h2⟩ := hcond
    subst h1; subst h2
    rw [pySplit_sep_cons] at h
    injection h with h1 h2
    exact absurd h2 (pySplit_ne_nil cs)
  | case4 c1 c2 cs hcond hnil ih => exact absurd hnil (pySplit_ne_nil _)
  | case5 c1 c2 cs hcond p ps hp ih =>
    intro u h
    rw [pySplit_cons_of_ne hcond hp] at h
    injection h with h1 h2
    rw [h2] at hp
    rw [← h1, ih hp]

theorem lastSuffixSpec_of_getLast?_none {s : List Char}
    (h : (sepOccurrences s).getLast? = none) : lastSuffixSpec s = s := by
  unfold lastSuffixSpec
  rw [h]

theorem lastSuffixSpec_of_getLast?_some {s : List Char} {i : Nat}
    (h : (sepOccurrences s).getLast? = some i) :
    lastSuffixSpec s = s.drop (i + 2) := by
  unfold lastSuffixSpec
  rw [h]
  rfl

/-- The implementation's `split("; ")[-1]` computes exactly the suffix of
the string after the last occurrence of the separator (the whole string
when the separator is absent). -/
theorem pyLastSplit_eq_lastSuffixSpec : ∀ s : List Char,
    pyLastSplit s = lastSuffixSpec s := by
  intro s
  induction s using pySplit.induct with
  | case1 => rfl
  | case2 c =>
    rw [lastSuffixSpec_of_getLast?_none (by rw [sepOccurrences_single]; rfl)]
    rfl
  | case3 c1 c2 cs hcond ih =>
    obtain ⟨h1, h2⟩ := hcond
    subst h1; subst h2
    have hL : pyLastSplit (';' :: ' ' :: cs) = pyLastSplit cs := by
      simp only [pyLastSplit]
      rw [pySplit_sep_cons, List.getLastD_cons]
    rw [hL, ih]
    cases hcs : sepOccurrences cs with
    | nil =>
      rw [lastSuffixSpec_of_getLast?_none (by rw [hcs]; rfl),
        lastSuffixSpec_of_getLast?_some
          (show (sepOccurrences (';' :: ' ' :: cs)).getLast? = some 0 by
            rw [sepOccurrences_sep_cons, hcs]; rfl)]
      rfl
    | cons j0 js =>
      obtain ⟨j, hj⟩ : ∃ j, (sepOccurrences cs).getLast? = some j := by
        cases hgl : (sepOccurrences cs).getLast? with
        | none =>
          rw [hcs] at hgl
          exact absurd (List.getLast?_eq_none_iff.mp hgl) (by simp)
        | some j => exact ⟨j, rfl⟩
      have hjS : (sepOccurrences (';' :: ' ' :: cs)).getLast? = some (j + 2) := by
        rw [sepOccurrences_sep_cons,
          getLast?_cons_of_ne_nil (by rw [hcs]; simp),
          List.getLast?_map, hj]
        rfl
      rw [lastSuffixSpec_of_getLast?_some hj, lastSuffixSpec_of_getLast?_some hjS]
      have harith : j + 2 + 2 = (j + 2) + 1 + 1 := by omega
      rw [harith, List.drop_succ_cons, List.drop_succ_cons]
  | case4 c1 c2 cs hcond hnil ih => exact absurd hnil (pySplit_ne_nil _)
  | case5 c1 c2 cs hcond p ps hp ih =>
    have hoccS : sepOccurrences (c1 :: c2 :: cs) =
        (sepOccurrences (c2 :: cs)).map (· + 1) :=
      sepOccurrences_cons_of_ne c1 c2 cs hcond
    have hps : pySplit (c1 :: c2 :: cs) = (c1 :: p) :: ps :=
      pySplit_cons_of_ne hcond hp
    cases ps with
    | nil =>
      have hpt : p = c2 :: cs := pySplit_singleton hp
      have hoccn : sepOccurrences (c2 :: cs) = [] := by
        have hlen := pySplit_length (c2 :: cs)
        rw [hp] at hlen
        simp only [List.length_singleton] at hlen
        have h0 : (sepOccurrences (c2 :: cs)).length = 0 := by omega
        exact List.length_eq_zero.mp h0
      rw [lastSuffixSpec_of_getLast?_none (by rw [hoccS, hoccn]; rfl)]
      simp only [pyLastSplit]
      rw [hps]
      simp [hpt]
    | cons q ps' =>
      have hne : sepOccurrences (c2 :: cs) ≠ [] := by
        intro h0
        have hlen := pySplit_length (c2 :: cs)
        rw [hp, h0] at hlen
        simp at hlen
      obtain ⟨j, hj⟩ : ∃ j, (sepOccurrences (c2 :: cs)).getLast? = some j := by
        cases hgl : (sepOccurrences (c2 :: cs)).getLast? with
        | none => exact absurd (List.getLast?_eq_none_iff.mp hgl) hne
        | some j => exact ⟨j, rfl⟩
      have hjS : (sepOccurrences (c1 :: c2 :: cs)).getLast? = some (j + 1) := by
        rw [hoccS, List.getLast?_map, hj]
        rfl
      rw [lastSuffixSpec_of_getLast?_some hjS]
      have hdrop : (c1 :: c2 :: cs).drop (j + 1 + 2) = (c2 :: cs).drop (j + 2) := by
        have harith : j + 1 + 2 = (j + 2) + 1 := by omega
        rw [harith, List.drop_succ_cons]
      rw [hdrop, ← lastSuffixSpec_of_getLast?_some hj, ← ih]
      simp only [pyLastSplit]
      rw [hps, hp, List.getLastD_eq_getLast?, List.getLastD_eq_getLast?,
        List.getLast?_cons_cons, List.getLast?_cons_cons]

/-! ## Helper lemmas -/

theorem pyDedupKeys_mem (x : Int) : ∀ l : List Int, x ∈ pyDedupKeys l ↔ x ∈ l := by
  intro l
  induction l with
  | nil => simp [pyDedupKeys]
  | cons k l ih =>
    by_cases hx : x = k
    · subst hx; simp [pyDedupKeys]
    · simp [pyDedupKeys, List.mem_filter, hx, ih]

theorem mapOpt_length {f : α → Option β} :
    ∀ {l : List α} {bs : List β}, mapOpt f l = some bs → bs.length = l.length := by
  intro l
  induction l with
  | nil => intro bs h; simp [mapOpt] at h; simp [← h]
  | cons a l ih =>
    intro bs h
    simp only [mapOpt] at h
    cases hfa : f a with
    | none => rw [hfa] at h; exact absurd h (by simp)
    | some b =>
      rw [hfa] at h
      cases hrec : mapOpt f l with
      | none => rw [hrec] at h; exact absurd h (by simp)
      | some bs' =>
        rw [hrec] at h
        cases h
        simp [ih hrec]

theorem mapOpt_getElem {f : α → Option β} :
    ∀ {l : List α} {bs : List β}, mapOpt f l = some bs →
      ∀ i (hi : i < l.length) (hbi : i < bs.length), f l[i] = some bs[i] := by
  intro l
  induction l with
  | nil => intro bs _ i hi; exact absurd hi (by simp)
  | cons a l ih =>
    intro bs h i hi hbi
    simp only [mapOpt] at h
    cases hfa : f a with
    | none => rw [hfa] at h; exact absurd h (by simp)
    | some b =>
      rw [hfa] at h
      cases hrec : mapOpt f l with
      | none => rw [hrec] at h; exact absurd h (by simp)
      | some bs' =>
        rw [hrec] at h
        cases h
        cases i with
        | zero => simpa using hfa
        | succ j =>
          simp only [List.getElem_cons_succ]
          exact ih hrec j (by simpa using hi) (by simpa using hbi)

theorem mapOpt_eq_none_of_mem {f : α → Option β} {a : α} :
    ∀ {l : List α}, a ∈ l → f a = none → mapOpt f l = none := by
  intro l
  induction l with
  | nil => intro h; exact absurd h (by simp)
  | cons x l ih =>
    intro hmem hfa
    rcases List.mem_cons.mp hmem with h | h
    · subst h; simp [mapOpt, hfa]
    · simp only [mapOpt]
      cases hfx : f x with
      | none => rfl
      | some b => rw [ih h hfa]

theorem pyIndex_eq_none_of_not_mem {k : Int} :
    ∀ {l : List Int}, k ∉ l → pyIndex l k = none := by
  intro l
  induction l with
  | nil => intro _; rfl
  | cons x l ih =>
    intro h
    have hx : ¬x = k := fun he => h (by simp [he])
    have hl : k ∉ l := fun hm => h (List.mem_cons_of_mem _ hm)
    simp [pyIndex, hx, ih hl]

theorem buildLayers_map_classValue {keys : List Int} {names colors : List String}
    (hn : names.length = keys.length) (hc : colors.length = keys.length) :
    (buildLayers keys names colors).map Layer.classValue = keys := by
  unfold buildLayers
  rw [List.map_map]
  have : (Layer.classValue ∘ fun p : Int × String × String =>
      { classValue := p.1, palette := "#" ++ p.2.2, name := p.2.1 : Layer }) =
      Prod.fst := rfl
  rw [this]
  exact List.map_fst_zip _ _ (by simp [List.length_zip, hn, hc])

/-- Inversion of a successful visualizer call: the widget and the request
trace are exactly the ones built from the resolved metadata. -/
theorem visualize_ok_inversion {b : Backend} {t : String} {m : MapWidget}
    {reqs : List BackendRequest}
    (h : visualize_corine_land_cover true b t = (Except.ok m, reqs)) :
    ∃ names colors, filtered_class_names b = some names ∧
      filtered_class_palette b = some colors ∧
      m = { layers := buildLayers (filteredClassKeys b) names colors
            legendTitle := t
            legend := pyDictOf (buildLegendPairs names colors)
            centerZoom := some 12 } ∧
      reqs = BackendRequest.metadataFetch :: BackendRequest.histogramReduce ::
        (filteredClassKeys b).map BackendRequest.maskLayer := by
  unfold visualize_corine_land_cover at h
  cases hn : filtered_class_names b with
  | none =>
    rw [hn] at h
    cases hc : filtered_class_palette b <;> rw [hc] at h <;> cases h
  | some names =>
    rw [hn] at h
    cases hc : filtered_class_palette b with
    | none => rw [hc] at h; cases h
    | some colors =>
      rw [hc] at h
      refine ⟨names, colors, rfl, rfl, ?_, ?_⟩
      · have := congrArg Prod.fst h
        simp only at this
        cases this; rfl
      · have := congrArg Prod.snd h
        simp only at this
        exact this.symm

theorem buildLayers_length (keys : List Int) (names colors : List String) :
    (buildLayers keys names colors).length =
      min keys.length (min names.length colors.length) := by
  simp [buildLayers]

theorem buildLayers_getElem {keys : List Int} {names colors : List String}
    {i : Nat} (h1 : i < keys.length) (h2 : i < names.length)
    (h3 : i < colors.length) (h4 : i < (buildLayers keys names colors).length) :
    (buildLayers keys names colors)[i] =
      { classValue := keys[i], palette := "#" ++ colors[i], name := names[i] } := by
  simp [buildLayers, List.getElem_zip]

theorem buildLegendPairs_length (names colors : List String) :
    (buildLegendPairs names colors).length = min names.length colors.length := by
  simp [buildLegendPairs]

theorem buildLegendPairs_getElem {names colors : List String} {i : Nat}
    (h2 : i < names.length) (h3 : i < colors.length)
    (h4 : i < (buildLegendPairs names colors).length) :
    (buildLegendPairs names colors)[i] = (names[i], "#" ++ colors[i]) := by
  simp [buildLegendPairs, List.getElem_zip]

/-- Inversion of a successful name resolution: the class has a position in
the metadata value list, the name list has an entry there, and the result
is its split suffix. -/
theorem resolveName_eq_some {b : Backend} {k : Int} {n : String}
    (h : resolveName b k = some n) :
    ∃ idx raw, pyIndex b.class_values k = some idx ∧
      b.class_names.get? idx = some raw ∧ n = pyLastSplitStr raw := by
  unfold resolveName at h
  split at h
  next hpi => exact absurd h (by simp)
  next i hpi =>
    split at h
    next hgw => exact absurd h (by simp)
    next raw hgw =>
      simp only [Option.some.injEq] at h
      exact ⟨i, raw, hpi, hgw, h.symm⟩

/-- The rows built by the tabulator loop, as a map over the group records;
independent of `verbose`. -/
theorem tabulateLoop_rows (class_mapping : List (Int × String)) (verbose : Bool) :
    ∀ groups : List GroupRecord,
      (tabulateLoop class_mapping verbose groups).1 =
        groups.map (fun g =>
          { Class := g.group
            ClassName := (class_mapping.lookup g.group).getD "Unknown"
            AreaHa := g.sum / 10000 }) := by
  intro groups
  induction groups with
  | nil => rfl
  | cons g gs ih => simp [tabulateLoop, ih]

/-! ## Concrete backends used to instantiate the claims -/

/-- A backend with two present classes, both found in the metadata. -/
def demoBackend : Backend :=
  { class_names := ["Forest", "Water"]
    class_values := [1, 2]
    class_palette := ["228b22", "0000ff"]
    histogram := [(1, 120), (2, 30)] }

/-- The widget the visualizer builds for `demoBackend`. -/
def demoMap : MapWidget :=
  { layers := [⟨1, "#228b22", "Forest"⟩, ⟨2, "#0000ff", "Water"⟩]
    legendTitle := "T"
    legend := [("Forest", "#228b22"), ("Water", "#0000ff")]
    centerZoom := some 12 }

/-- The requests the visualizer issues for `demoBackend`. -/
def demoReqs : List BackendRequest :=
  [BackendRequest.metadataFetch, BackendRequest.histogramReduce,
    BackendRequest.maskLayer 1, BackendRequest.maskLayer 2]

/-- A backend whose single metadata name carries the `"; "` separator. -/
def demoSepBackend : Backend :=
  { class_names := ["Artificial surfaces; Urban fabric"]
    class_values := [7]
    class_palette := ["ff0000"]
    histogram := [(7, 3)] }

/-- A backend whose region contains no classified pixels. -/
def demoEmptyBackend : Backend :=
  { class_names := ["Forest"]
    class_values := [1]
    class_palette := ["228b22"]
    histogram := [] }

/-- A backend whose histogram has a class missing from the metadata value
list. -/
def demoBadBackend : Backend :=
  { class_names := ["Forest"]
    class_values := [1]
    class_palette := ["228b22"]
    histogram := [(9, 5)] }

/-! ## The claims -/

/-- Claim C1: for every input roi to the visualizer that is not a geometry
value, the call raises an `InvalidArgument` error (the `TypeError` of the
source), and it does so before any backend request is issued: the request
trace of the call is empty. -/
theorem corine_C1_invalid_roi_errors_before_requests
    (b : Backend) (map_title : String) :
    visualize_corine_land_cover false b map_title =
      (Except.error VisError.invalidArgument, []) := rfl

/-- Claim C2: for every grouped-sum result list returned by the backend,
`compute_landcover_area` returns one row per group record, in the
backend's order, with the class key, the name resolved through the
caller's mapping (`"Unknown"` when absent) and the summed square-meter
area divided by 10000; in particular the spec's scenario
`[{group: 1, sum: 500000}, {group: 2, sum: 125000}]` with
`class_names = {1: "Forest"}` yields rows `(1, "Forest", 50.0)` and
`(2, "Unknown", 12.5)`. -/
theorem corine_C2_area_table (groups : List GroupRecord)
    (class_mapping : List (Int × String)) (scale maxPixels : ℚ) (verbose : Bool) :
    (compute_landcover_area groups class_mapping scale maxPixels verbose).1 =
      groups.map (fun g =>
        { Class := g.group
          ClassName := (class_mapping.lookup g.group).getD "Unknown"
          AreaHa := g.sum / 10000 }) ∧
    (compute_landcover_area [⟨1, 500000⟩, ⟨2, 125000⟩] [(1, "Forest")]
        scale maxPixels verbose).1 =
      [⟨1, "Forest", 50⟩, ⟨2, "Unknown", 25/2⟩] := by
  constructor
  · simp only [compute_landcover_area]
    exact tabulateLoop_rows class_mapping verbose groups
  · norm_num [compute_landcover_area, tabulateLoop, List.lookup]
    rfl

/-- Claim C3: for every region (every presence histogram the backend
returns), the set of class identifiers for which the visualizer adds a map
layer equals exactly the key set of that presence histogram. -/
theorem corine_C3_layers_are_histogram_keys {b : Backend} {t : String}
    {m : MapWidget} {reqs : List BackendRequest}
    (h : visualize_corine_land_cover true b t = (Except.ok m, reqs)) (k : Int) :
    k ∈ m.layers.map Layer.classValue ↔ k ∈ b.histogram.map Prod.fst := by
  obtain ⟨names, colors, hn, hc, hm, hr⟩ := visualize_ok_inversion h
  subst hm
  show k ∈ (buildLayers (filteredClassKeys b) names colors).map Layer.classValue ↔
    k ∈ b.histogram.map Prod.fst
  rw [buildLayers_map_classValue (mapOpt_length hn) (mapOpt_length hc)]
  exact pyDedupKeys_mem k (b.histogram.map Prod.fst)

/-- Claim C3, witness: the visualizer on `demoBackend` adds a layer for
class 1 exactly because key 1 is in the histogram. -/
theorem corine_C3_witness :
    (1 : Int) ∈ demoMap.layers.map Layer.classValue ↔
      (1 : Int) ∈ demoBackend.histogram.map Prod.fst :=
  @corine_C3_layers_are_histogram_keys demoBackend "T" demoMap demoReqs rfl 1

/-- Claim C4: for every class identifier present in the presence
histogram, the layer added for that class and the legend entry built for
it carry the color taken from the metadata palette list at the index at
which that class identifier occurs in the metadata value list (with the
`"#"` the source prepends). -/
theorem corine_C4_legend_color_from_palette_index {b : Backend} {t : String}
    {m : MapWidget} {reqs : List BackendRequest}
    (h : visualize_corine_land_cover true b t = (Except.ok m, reqs))
    (k : Int) (idx : Nat) (c : String)
    (hk : k ∈ b.histogram.map Prod.fst)
    (hidx : pyIndex b.class_values k = some idx)
    (hcol : b.class_palette.get? idx = some c) :
    ∃ names colors n, filtered_class_names b = some names ∧
      filtered_class_palette b = some colors ∧
      ({ classValue := k, palette := "#" ++ c, name := n } : Layer) ∈ m.layers ∧
      (n, "#" ++ c) ∈ buildLegendPairs names colors := by
  obtain ⟨names, colors, hn, hc, hm, hr⟩ := visualize_ok_inversion h
  subst hm
  have hkmem : k ∈ filteredClassKeys b := (pyDedupKeys_mem k _).mpr hk
  obtain ⟨i, hi, hki⟩ := List.mem_iff_getElem.mp hkmem
  have hlenn : names.length = (filteredClassKeys b).length := mapOpt_length hn
  have hlenc : colors.length = (filteredClassKeys b).length := mapOpt_length hc
  have hin : i < names.length := by omega
  have hic : i < colors.length := by omega
  have hci := mapOpt_getElem hc i hi hic
  rw [hki] at hci
  have hc2 : resolveColor b k = some c := by
    unfold resolveColor
    rw [hidx]
    exact hcol
  rw [hci] at hc2
  have hcc : colors[i] = c := Option.some.inj hc2
  refine ⟨names, colors, names[i], hn, hc, ?_, ?_⟩
  · show _ ∈ buildLayers (filteredClassKeys b) names colors
    have h4 : i < (buildLayers (filteredClassKeys b) names colors).length := by
      rw [buildLayers_length]; omega
    have hmem := List.getElem_mem h4
    rw [buildLayers_getElem hi hin hic h4, hki, hcc] at hmem
    exact hmem
  · have h4 : i < (buildLegendPairs names colors).length := by
      rw [buildLegendPairs_length]; omega
    have hmem := List.getElem_mem h4
    rw [buildLegendPairs_getElem hin hic h4, hcc] at hmem
    exact hmem

/-- Claim C4, witness: on `demoBackend`, class 2 sits at index 1 of the
value list, and its layer and legend entry carry palette entry 1. -/
theorem corine_C4_witness :
    ∃ names colors n, filtered_class_names demoBackend = some names ∧
      filtered_class_palette demoBackend = some colors ∧
      ({ classValue := 2, palette := "#" ++ "0000ff", name := n } : Layer) ∈
        demoMap.layers ∧
      (n, "#" ++ "0000ff") ∈ buildLegendPairs names colors :=
  @corine_C4_legend_color_from_palette_index demoBackend "T" demoMap demoReqs
    rfl 2 1 "0000ff" (by decide) rfl rfl

/-- Claim C5: for every region whose presence histogram is empty, the
visualizer does not fail: it returns a map widget with zero layers and an
empty legend (and still a centered viewport), after the metadata and
histogram requests. -/
theorem corine_C5_empty_histogram_ok (b : Backend) (t : String)
    (h : b.histogram = []) :
    visualize_corine_land_cover true b t =
      (Except.ok
        { layers := [], legendTitle := t, legend := [], centerZoom := some 12 },
       [BackendRequest.metadataFetch, BackendRequest.histogramReduce]) := by
  obtain ⟨ns, vs, ps, hist⟩ := b
  simp only at h
  subst h
  rfl

/-- Claim C5, witness: the visualizer on `demoEmptyBackend` returns an
empty widget. -/
theorem corine_C5_witness :
    visualize_corine_land_cover true demoEmptyBackend "T" =
      (Except.ok
        { layers := [], legendTitle := "T", legend := [], centerZoom := some 12 },
       [BackendRequest.metadataFetch, BackendRequest.histogramReduce]) :=
  corine_C5_empty_histogram_ok demoEmptyBackend "T" rfl

/-- Claim C6: for every class identifier in the grouped-sum result that is
absent from the caller-supplied class-name mapping, the tabulator reports
that row's class name as the literal string `"Unknown"`. -/
theorem corine_C6_unknown_class_name (groups : List GroupRecord)
    (class_mapping : List (Int × String)) (scale maxPixels : ℚ) (verbose : Bool)
    (g : GroupRecord) (hg : g ∈ groups)
    (hcm : class_mapping.lookup g.group = none) :
    ({ Class := g.group, ClassName := "Unknown", AreaHa := g.sum / 10000 } :
        AreaRow) ∈
      (compute_landcover_area groups class_mapping scale maxPixels verbose).1 := by
  have hrows := tabulateLoop_rows class_mapping verbose groups
  show _ ∈ (tabulateLoop class_mapping verbose groups).1
  rw [hrows]
  refine List.mem_map.mpr ⟨g, hg, ?_⟩
  rw [hcm]
  rfl

/-- Claim C6, witness: group record for class 2 with mapping `{1: Forest}`
yields an `"Unknown"` row. -/
theorem corine_C6_witness :
    ({ Class := 2, ClassName := "Unknown", AreaHa := (125000 : ℚ) / 10000 } :
        AreaRow) ∈
      (compute_landcover_area [⟨2, 125000⟩] [(1, "Forest")] 100 100000000
        true).1 :=
  corine_C6_unknown_class_name [⟨2, 125000⟩] [(1, "Forest")] 100 100000000
    true ⟨2, 125000⟩ (by decide) rfl

/-- Claim C7: for every present class, the display name the visualizer
uses for its layer (and legend entry) is the suffix of the metadata
class-name string after the last occurrence of the separator `"; "`, the
whole string when the separator is absent (`lastSuffixSpec`). -/
theorem corine_C7_display_name_is_last_suffix {b : Backend} {t : String}
    {m : MapWidget} {reqs : List BackendRequest}
    (h : visualize_corine_land_cover true b t = (Except.ok m, reqs))
    (L : Layer) (hL : L ∈ m.layers) :
    ∃ idx raw, pyIndex b.class_values L.classValue = some idx ∧
      b.class_names.get? idx = some raw ∧
      L.name = String.mk (lastSuffixSpec raw.data) := by
  obtain ⟨names, colors, hn, hc, hm, hr⟩ := visualize_ok_inversion h
  subst hm
  have hL2 : L ∈ buildLayers (filteredClassKeys b) names colors := hL
  obtain ⟨i, hi, hLi⟩ := List.mem_iff_getElem.mp hL2
  have hlenn : names.length = (filteredClassKeys b).length := mapOpt_length hn
  have hlenc : colors.length = (filteredClassKeys b).length := mapOpt_length hc
  have hik : i < (filteredClassKeys b).length := by
    rw [buildLayers_length] at hi; omega
  have hin : i < names.length := by omega
  have hic : i < colors.length := by omega
  rw [buildLayers_getElem hik hin hic hi] at hLi
  have hni := mapOpt_getElem hn i hik hin
  obtain ⟨idx, raw, hpi, hgw, hname⟩ := resolveName_eq_some hni
  refine ⟨idx, raw, ?_, hgw, ?_⟩
  · rw [← hLi]
    exact hpi
  · rw [← hLi]
    show names[i] = String.mk (lastSuffixSpec raw.data)
    rw [hname]
    show String.mk (pyLastSplit raw.data) = String.mk (lastSuffixSpec raw.data)
    rw [pyLastSplit_eq_lastSuffixSpec]

/-- Claim C7, witness: on `demoSepBackend` the layer for class 7 is named
with the suffix `"Urban fabric"` of
`"Artificial surfaces; Urban fabric"`. -/
theorem corine_C7_witness :
    ∃ idx raw, pyIndex demoSepBackend.class_values
        (Layer.mk 7 "#ff0000" "Urban fabric").classValue = some idx ∧
      demoSepBackend.class_names.get? idx = some raw ∧
      (Layer.mk 7 "#ff0000" "Urban fabric").name =
        String.mk (lastSuffixSpec raw.data) :=
  @corine_C7_display_name_is_last_suffix demoSepBackend "T"
    { layers := [⟨7, "#ff0000", "Urban fabric"⟩]
      legendTitle := "T"
      legend := [("Urban fabric", "#ff0000")]
      centerZoom := some 12 }
    [BackendRequest.metadataFetch, BackendRequest.histogramReduce,
      BackendRequest.maskLayer 7]
    rfl (Layer.mk 7 "#ff0000" "Urban fabric") (by decide)

/-- Claim C8: for every presence histogram containing a class identifier
that does not occur in the metadata value list, the visualizer raises an
unhandled lookup failure (after the metadata and histogram requests), with
no layers added. -/
theorem corine_C8_missing_class_lookup_fails (b : Backend) (t : String)
    (k : Int) (hk : k ∈ b.histogram.map Prod.fst)
    (habs : k ∉ b.class_values) :
    visualize_corine_land_cover true b t =
      (Except.error VisError.lookupFailure,
       [BackendRequest.metadataFetch, BackendRequest.histogramReduce]) := by
  have hres : resolveName b k = none := by
    unfold resolveName
    rw [pyIndex_eq_none_of_not_mem habs]
  have hkmem : k ∈ filteredClassKeys b := (pyDedupKeys_mem k _).mpr hk
  have hnames : filtered_class_names b = none :=
    mapOpt_eq_none_of_mem hkmem hres
  unfold visualize_corine_land_cover
  rw [hnames]

/-- Claim C8, witness: class 9 is present in `demoBadBackend`'s histogram
but absent from its value list, so the call fails. -/
theorem corine_C8_witness :
    visualize_corine_land_cover true demoBadBackend "T" =
      (Except.error VisError.lookupFailure,
       [BackendRequest.metadataFetch, BackendRequest.histogramReduce]) :=
  corine_C8_missing_class_lookup_fails demoBadBackend "T" 9 (by decide)
    (by decide)

/-- Claim C9: two calls of `compute_landcover_area` differing only in the
verbose flag (same mapping, scale, max-pixel bound and the same backend
grouped-sum response) return identical tables and issue identical backend
requests; verbose only changes the console output. -/
theorem corine_C9_verbose_only_affects_output (groups : List GroupRecord)
    (class_mapping : List (Int × String)) (scale maxPixels : ℚ) :
    (compute_landcover_area groups class_mapping scale maxPixels true).1 =
      (compute_landcover_area groups class_mapping scale maxPixels false).1 ∧
    (compute_landcover_area groups class_mapping scale maxPixels true).2.1 =
      (compute_landcover_area groups class_mapping scale maxPixels false).2.1 := by
  constructor
  · show (tabulateLoop class_mapping true groups).1 =
      (tabulateLoop class_mapping false groups).1
    rw [tabulateLoop_rows, tabulateLoop_rows]
  · rfl

/-- Claim C10: a grouped-sum result with zero group records does not make
`compute_landcover_area` fail: it returns an empty table. -/
theorem corine_C10_empty_groups_empty_table
    (class_mapping : List (Int × String)) (scale maxPixels : ℚ)
    (verbose : Bool) :
    (compute_landcover_area [] class_mapping scale maxPixels verbose).1 = [] :=
  rfl

end Corine

/-! sanity checks (concrete evaluations of the embedded functions) -/

example : Corine.pySplit "a; b".data = [['a'], ['b']] := by decide
example : Corine.pySplit "Artificial; Urban fabric".data =
    ["Artificial".data, "Urban fabric".data] := by decide
example : Corine.pyLastSplitStr "Artificial; Urban fabric" = "Urban fabric" := rfl
example : Corine.pyLastSplitStr "Forest" = "Forest" := rfl
example : Corine.lastSuffixSpec "a; b; c".data = ['c'] := by decide
example : Corine.pyLastSplit "a; b; c".data = ['c'] := by decide
example : Corine.pyDedupKeys [1, 2, 1, 3] = [1, 2, 3] := by decide
example :
    Corine.visualize_corine_land_cover true
      ⟨["Forest", "Water"], [1, 2], ["228b22", "0000ff"], [(1, 120), (2, 30)]⟩
      "T" =
    (Except.ok
      { layers := [⟨1, "#228b22", "Forest"⟩, ⟨2, "#0000ff", "Water"⟩]
        legendTitle := "T"
        legend := [("Forest", "#228b22"), ("Water", "#0000ff")]
        centerZoom := some 12 },
     [.metadataFetch, .histogramReduce, .maskLayer 1, .maskLayer 2]) := rfl
example :
    (Corine.compute_landcover_area [⟨1, 500000⟩, ⟨2, 125000⟩] [(1, "Forest")]
      100 100000000 true).1 =
    [⟨1, "Forest", 50⟩, ⟨2, "Unknown", 125/10⟩] := by
  norm_num [Corine.compute_landcover_area, Corine.tabulateLoop, List.lookup]
  rfl
